import Mathlib

/-!
Verification of the LetsPrint invoice system against its specification.

The development shallowly embeds the TypeScript sources:
* `gstCalculator` (validation, rate determination, HSN resolution, GST split),
* the bulk invoice queue processor (per-item partial failure, progress writes),
* the single-order generation action (invoice numbering, failure handling),
* the file-storage service and the download route (shop-scoped retrieval).

Monetary values are modelled as rationals; JavaScript `Math.round` is the
round-half-up `round : ℚ → ℤ` (both are `⌊x + 1/2⌋`).  JavaScript string
operations (`trim`, `toUpperCase`, `toLowerCase`, `includes`) are modelled
character-wise over `List Char`; the character domain of the program's state
codes and keyword hints is ASCII, where `Char.toUpper`/`Char.toLower` agree
with JavaScript.
-/

/-- The whitespace characters removed by JavaScript `String.prototype.trim`
(ASCII fragment: TAB, LF, VT, FF, CR, SPACE). -/
def isJSWhitespace (c : Char) : Bool :=
  c == '\t' || c == '\n' || c == '\x0b' || c == '\x0c' || c == '\r' || c == ' '

/-- Trim on the character list: drop whitespace from both ends. -/
def jsTrimList (l : List Char) : List Char :=
  ((l.dropWhile isJSWhitespace).reverse.dropWhile isJSWhitespace).reverse

/-- Model of JavaScript `s.trim()`. -/
def jsTrim (s : String) : String :=
  String.mk (jsTrimList s.toList)

/-- Model of JavaScript `s.toUpperCase()` on the ASCII domain. -/
def jsToUpper (s : String) : String :=
  String.mk (s.toList.map Char.toUpper)

/-- Model of JavaScript `s.toLowerCase()` on the ASCII domain. -/
def jsToLower (s : String) : String :=
  String.mk (s.toList.map Char.toLower)

/-- Does `l` start with the pattern `pat`? -/
def hasPrefixCh : (pat : List Char) → (l : List Char) → Bool
  | [], _ => true
  | _ :: _, [] => false
  | a :: as, b :: bs => a == b && hasPrefixCh as bs

/-- Does `l` contain `pat` as a contiguous segment? -/
def containsSeg : (l : List Char) → (pat : List Char) → Bool
  | [], pat => pat.isEmpty
  | c :: t, pat => hasPrefixCh pat (c :: t) || containsSeg t pat

/-- Model of JavaScript `s.includes(sub)`. -/
def jsIncludes (s sub : String) : Bool :=
  containsSeg s.toList sub.toList

/-! ## The GST calculator (`app/lib/utils/gstCalculator.ts`) -/

/-- `GSTRateConfig` of `types/gst`. -/
structure GSTRateConfig where
  threshold : ℚ
  lowRate : ℚ
  highRate : ℚ
deriving DecidableEq, Repr

/-- `DEFAULT_GST_CONFIG`: ₹1000 threshold, 5% below it, 12% at or above. -/
def DEFAULT_GST_CONFIG : GSTRateConfig :=
  { threshold := 1000, lowRate := 5 / 100, highRate := 12 / 100 }

/-- `TEXTILE_HSN_CODES` (the object's `default` key is the field `deflt`). -/
structure HSNCodeMapping where
  textiles : String
  cotton : String
  polyester : String
  blend : String
  deflt : String
deriving DecidableEq, Repr

def TEXTILE_HSN_CODES : HSNCodeMapping :=
  { textiles := "6109", cotton := "6109.10", polyester := "6109.90",
    blend := "6109.90", deflt := "6109" }

/-- One entry of the `INDIAN_STATES` table. -/
structure StateInfo where
  name : String
  code : String
  gstCode : String
deriving DecidableEq, Repr

/-- `INDIAN_STATES`: the enumerated Indian state-code table, keyed by code. -/
def INDIAN_STATES : List (String × StateInfo) :=
  [ ("AN", ⟨"Andaman and Nicobar Islands", "AN", "35"⟩),
    ("AP", ⟨"Andhra Pradesh", "AP", "28"⟩),
    ("AR", ⟨"Arunachal Pradesh", "AR", "12"⟩),
    ("AS", ⟨"Assam", "AS", "18"⟩),
    ("BR", ⟨"Bihar", "BR", "10"⟩),
    ("CH", ⟨"Chandigarh", "CH", "04"⟩),
    ("CG", ⟨"Chhattisgarh", "CG", "22"⟩),
    ("DN", ⟨"Dadra and Nagar Haveli", "DN", "26"⟩),
    ("DD", ⟨"Daman and Diu", "DD", "25"⟩),
    ("DL", ⟨"Delhi", "DL", "07"⟩),
    ("GA", ⟨"Goa", "GA", "30"⟩),
    ("GJ", ⟨"Gujarat", "GJ", "24"⟩),
    ("HR", ⟨"Haryana", "HR", "06"⟩),
    ("HP", ⟨"Himachal Pradesh", "HP", "02"⟩),
    ("JK", ⟨"Jammu and Kashmir", "JK", "01"⟩),
    ("JH", ⟨"Jharkhand", "JH", "20"⟩),
    ("KA", ⟨"Karnataka", "KA", "29"⟩),
    ("KL", ⟨"Kerala", "KL", "32"⟩),
    ("LD", ⟨"Lakshadweep", "LD", "31"⟩),
    ("MP", ⟨"Madhya Pradesh", "MP", "23"⟩),
    ("MH", ⟨"Maharashtra", "MH", "27"⟩),
    ("MN", ⟨"Manipur", "MN", "14"⟩),
    ("ML", ⟨"Meghalaya", "ML", "17"⟩),
    ("MZ", ⟨"Mizoram", "MZ", "15"⟩),
    ("NL", ⟨"Nagaland", "NL", "13"⟩),
    ("OR", ⟨"Odisha", "OR", "21"⟩),
    ("PY", ⟨"Puducherry", "PY", "34"⟩),
    ("PB", ⟨"Punjab", "PB", "03"⟩),
    ("RJ", ⟨"Rajasthan", "RJ", "08"⟩),
    ("SK", ⟨"Sikkim", "SK", "11"⟩),
    ("TN", ⟨"Tamil Nadu", "TN", "33"⟩),
    ("TG", ⟨"Telangana", "TG", "36"⟩),
    ("TR", ⟨"Tripura", "TR", "16"⟩),
    ("UP", ⟨"Uttar Pradesh", "UP", "09"⟩),
    ("UT", ⟨"Uttarakhand", "UT", "05"⟩),
    ("WB", ⟨"West Bengal", "WB", "19"⟩) ]

/-- Is `code` a key of `INDIAN_STATES` (JS `INDIAN_STATES[code]` truthiness)? -/
def isIndianState (code : String) : Bool :=
  (List.lookup code INDIAN_STATES).isSome

/-- `GSTCalculationContext` of `types/gst`.  The audit-only `orderId` field is
kept; the audit trail itself (timestamp, random id) is impure and outside the
model. -/
structure GSTCalculationContext where
  orderTotal : ℚ
  subtotal : ℚ
  customerState : String
  storeState : String
  productType : Option String := none
  hsnCode : Option String := none
  orderId : Option String := none
deriving DecidableEq, Repr

/-- `validateGSTContext`: the accumulated list of violation messages, in the
order the source pushes them (`isValid` of the source is `errors.isEmpty`).
JavaScript truthiness: `!x` for a number is `x = 0` (subsumed by `≤ 0`), and
for a string it is emptiness. -/
def validateGSTContext (context : GSTCalculationContext) : List String :=
  (if context.orderTotal ≤ 0 then ["Order total must be greater than 0"] else []) ++
  (if context.subtotal ≤ 0 then ["Subtotal must be greater than 0"] else []) ++
  (if jsTrim context.customerState = "" then ["Customer state is required"] else []) ++
  (if jsTrim context.storeState = "" then ["Store state is required"] else []) ++
  (if context.customerState ≠ "" ∧ ¬ isIndianState (jsToUpper context.customerState)
    then ["Invalid customer state code: " ++ context.customerState] else []) ++
  (if context.storeState ≠ "" ∧ ¬ isIndianState (jsToUpper context.storeState)
    then ["Invalid store state code: " ++ context.storeState] else [])

/-- `determineGSTRate`: low rate below the threshold, high rate at or above. -/
def determineGSTRate (orderTotal : ℚ)
    (config : GSTRateConfig := DEFAULT_GST_CONFIG) : ℚ :=
  if orderTotal < config.threshold then config.lowRate else config.highRate

/-- The `productType` branch of `getHSNCode`: keyword inference on the
lowered product type, blend/mix checked first, then cotton, then polyester;
no match (or no product type) falls back to the default code. -/
def getHSNCodeFromType : Option String → String
  | some p =>
    let type := jsToLower p
    if jsIncludes type "blend" || jsIncludes type "mix" then TEXTILE_HSN_CODES.blend
    else if jsIncludes type "cotton" then TEXTILE_HSN_CODES.cotton
    else if jsIncludes type "polyester" then TEXTILE_HSN_CODES.polyester
    else TEXTILE_HSN_CODES.deflt
  | none => TEXTILE_HSN_CODES.deflt

/-- `getHSNCode (productType?, hsnCode?)`: explicit code (trimmed) when
non-empty after trimming, else keyword inference on the product type. -/
def getHSNCode (productType : Option String) (hsnCode : Option String) : String :=
  match hsnCode with
  | some h =>
    if jsTrim h ≠ "" then jsTrim h else getHSNCodeFromType productType
  | none => getHSNCodeFromType productType

/-- `normalizeStateCode`: trim, uppercase, and require membership in
`INDIAN_STATES`; a thrown `Error` is the `.error` case. -/
def normalizeStateCode (stateCode : String) : Except String String :=
  if jsTrim stateCode = "" then .error "State code cannot be empty"
  else
    let normalized := jsToUpper (jsTrim stateCode)
    if isIndianState normalized then .ok normalized
    else .error ("Invalid state code: " ++ stateCode)

/-- JavaScript `Math.round(x * 100) / 100`: round to two decimal places,
halves toward positive infinity (`round` is `⌊x + 1/2⌋`, as in JS). -/
def round2 (x : ℚ) : ℚ :=
  ((round (x * 100) : ℤ) : ℚ) / 100

inductive GSTType where
  | CGST_SGST
  | IGST
deriving DecidableEq, Repr

/-- `GSTBreakdown` of `types/shopify` (optional split fields). -/
structure GSTBreakdown where
  gstType : GSTType
  gstRate : ℚ
  cgstAmount : Option ℚ := none
  sgstAmount : Option ℚ := none
  igstAmount : Option ℚ := none
  totalGstAmount : ℚ
  taxableAmount : ℚ
  hsnCode : Option String := none
deriving DecidableEq, Repr

/-- The failure payload of `GSTCalculationResult` (`code` and `error`). -/
structure GSTFailure where
  code : String
  error : String
deriving DecidableEq, Repr

/-- `calculateGST`: validate (accumulating all violations), normalize the
state codes (a throw becomes `CALCULATION_ERROR`), pick the rate from the
order total, tax the subtotal, and split intrastate or interstate. -/
def calculateGST (context : GSTCalculationContext) :
    Except GSTFailure GSTBreakdown :=
  let errors := validateGSTContext context
  if errors ≠ [] then
    .error ⟨"VALIDATION_ERROR", String.intercalate ", " errors⟩
  else
    match normalizeStateCode context.customerState with
    | .error e => .error ⟨"CALCULATION_ERROR", e⟩
    | .ok customerState =>
      match normalizeStateCode context.storeState with
      | .error e => .error ⟨"CALCULATION_ERROR", e⟩
      | .ok storeState =>
        let gstRate := determineGSTRate context.orderTotal
        let taxableAmount := context.subtotal
        let totalGstAmount := round2 (taxableAmount * gstRate)
        let hsnCode := getHSNCode context.productType context.hsnCode
        if customerState = storeState then
          let cgstAmount := round2 (totalGstAmount / 2)
          let sgstAmount := round2 (totalGstAmount / 2)
          .ok { gstType := .CGST_SGST, gstRate, cgstAmount := some cgstAmount,
                sgstAmount := some sgstAmount, totalGstAmount, taxableAmount,
                hsnCode := some hsnCode }
        else
          .ok { gstType := .IGST, gstRate, igstAmount := some totalGstAmount,
                totalGstAmount, taxableAmount, hsnCode := some hsnCode }

/-! ## Auxiliary lemmas about the string model -/

lemma toUpper_eq_self_of_jsWhitespace {c : Char} (h : isJSWhitespace c = true) :
    c.toUpper = c := by
  simp only [isJSWhitespace, Bool.or_eq_true, beq_iff_eq] at h
  rcases h with ((((h | h) | h) | h) | h) | h <;> subst h <;> decide

lemma dropWhile_eq_self_of_none {p : Char → Bool} {l : List Char}
    (h : ∀ c ∈ l, p c = false) : l.dropWhile p = l := by
  cases l with
  | nil => rfl
  | cons a t => simp [List.dropWhile_cons, h a (List.mem_cons_self a t)]

lemma jsTrimList_eq_self {l : List Char}
    (h : ∀ c ∈ l, isJSWhitespace c = false) : jsTrimList l = l := by
  unfold jsTrimList
  rw [dropWhile_eq_self_of_none h, dropWhile_eq_self_of_none, List.reverse_reverse]
  intro c hc
  exact h c (List.mem_reverse.mp hc)

lemma mem_keys_of_lookup_isSome {l : List (String × StateInfo)} {a : String}
    (h : (List.lookup a l).isSome = true) : a ∈ l.map Prod.fst := by
  induction l with
  | nil => simp [List.lookup] at h
  | cons p t ih =>
    rw [List.lookup] at h
    by_cases hpa : a = p.1
    · simp [hpa]
    · have : (a == p.1) = false := beq_false_of_ne hpa
      rw [this] at h
      simp only [List.map_cons, List.mem_cons]
      exact Or.inr (ih h)

lemma indianState_keys_no_whitespace :
    ∀ k ∈ INDIAN_STATES.map Prod.fst, ∀ c ∈ k.data, isJSWhitespace c = false := by
  decide

lemma chars_no_whitespace_of_isIndianState {s : String}
    (h : isIndianState (jsToUpper s) = true) :
    ∀ c ∈ s.data, isJSWhitespace c = false := by
  intro c hc
  by_contra hws
  have hws : isJSWhitespace c = true := by
    cases hcase : isJSWhitespace c
    · exact absurd hcase hws
    · rfl
  have hmem : c.toUpper ∈ (jsToUpper s).data := by
    simpa [jsToUpper] using List.mem_map_of_mem Char.toUpper hc
  have hkey : (jsToUpper s) ∈ INDIAN_STATES.map Prod.fst :=
    mem_keys_of_lookup_isSome h
  have := indianState_keys_no_whitespace (jsToUpper s) hkey c.toUpper hmem
  rw [toUpper_eq_self_of_jsWhitespace hws] at this
  rw [this] at hws
  exact Bool.false_ne_true hws

lemma jsTrim_eq_self_of_isIndianState {s : String}
    (h : isIndianState (jsToUpper s) = true) : jsTrim s = s := by
  have : jsTrimList s.data = s.data :=
    jsTrimList_eq_self (chars_no_whitespace_of_isIndianState h)
  simp [jsTrim, String.toList, this]

lemma normalizeStateCode_of_isIndianState {s : String}
    (h : isIndianState (jsToUpper s) = true) :
    normalizeStateCode s = .ok (jsToUpper s) := by
  have hne : s ≠ "" := by
    intro he
    subst he
    have : isIndianState (jsToUpper "") = false := by decide
    rw [this] at h
    exact Bool.false_ne_true h
  have htrim : jsTrim s = s := jsTrim_eq_self_of_isIndianState h
  unfold normalizeStateCode
  rw [htrim, if_neg hne, if_pos h]

lemma orderTotal_err_mem {ctx : GSTCalculationContext} (h : ctx.orderTotal ≤ 0) :
    "Order total must be greater than 0" ∈ validateGSTContext ctx := by
  simp [validateGSTContext, h]

lemma subtotal_err_mem {ctx : GSTCalculationContext} (h : ctx.subtotal ≤ 0) :
    "Subtotal must be greater than 0" ∈ validateGSTContext ctx := by
  simp [validateGSTContext, h]

lemma customerRequired_err_mem {ctx : GSTCalculationContext}
    (h : jsTrim ctx.customerState = "") :
    "Customer state is required" ∈ validateGSTContext ctx := by
  simp [validateGSTContext, h]

lemma storeRequired_err_mem {ctx : GSTCalculationContext}
    (h : jsTrim ctx.storeState = "") :
    "Store state is required" ∈ validateGSTContext ctx := by
  simp [validateGSTContext, h]

lemma customerInvalid_err_mem {ctx : GSTCalculationContext}
    (h1 : ctx.customerState ≠ "")
    (h2 : isIndianState (jsToUpper ctx.customerState) = false) :
    ("Invalid customer state code: " ++ ctx.customerState) ∈ validateGSTContext ctx := by
  simp [validateGSTContext, h1, h2]

lemma storeInvalid_err_mem {ctx : GSTCalculationContext}
    (h1 : ctx.storeState ≠ "")
    (h2 : isIndianState (jsToUpper ctx.storeState) = false) :
    ("Invalid store state code: " ++ ctx.storeState) ∈ validateGSTContext ctx := by
  simp [validateGSTContext, h1, h2]

lemma validateGSTContext_eq_nil {ctx : GSTCalculationContext}
    (h : validateGSTContext ctx = []) :
    0 < ctx.orderTotal ∧ 0 < ctx.subtotal ∧
      isIndianState (jsToUpper ctx.customerState) = true ∧
      isIndianState (jsToUpper ctx.storeState) = true := by
  have hnm : ∀ x : String, x ∉ validateGSTContext ctx := by
    rw [h]
    intro x hx
    exact List.not_mem_nil x hx
  refine ⟨?_, ?_, ?_, ?_⟩
  · by_contra hle
    exact hnm _ (orderTotal_err_mem (not_lt.mp hle))
  · by_contra hle
    exact hnm _ (subtotal_err_mem (not_lt.mp hle))
  · cases hb : isIndianState (jsToUpper ctx.customerState) with
    | true => rfl
    | false =>
      have hne : ctx.customerState ≠ "" := by
        intro he
        exact hnm _ (customerRequired_err_mem (by rw [he]; rfl))
      exact (hnm _ (customerInvalid_err_mem hne hb)).elim
  · cases hb : isIndianState (jsToUpper ctx.storeState) with
    | true => rfl
    | false =>
      have hne : ctx.storeState ≠ "" := by
        intro he
        exact hnm _ (storeRequired_err_mem (by rw [he]; rfl))
      exact (hnm _ (storeInvalid_err_mem hne hb)).elim

/-- Once validation passes, `calculateGST` always reaches the computation and
returns the breakdown determined by the normalized states, the rate from the
order total, and the rounded tax on the subtotal. -/
lemma calculateGST_of_valid {ctx : GSTCalculationContext}
    (h : validateGSTContext ctx = []) :
    calculateGST ctx =
      (if jsToUpper ctx.customerState = jsToUpper ctx.storeState then
        .ok { gstType := .CGST_SGST, gstRate := determineGSTRate ctx.orderTotal,
              cgstAmount := some (round2 (round2 (ctx.subtotal * determineGSTRate ctx.orderTotal) / 2)),
              sgstAmount := some (round2 (round2 (ctx.subtotal * determineGSTRate ctx.orderTotal) / 2)),
              totalGstAmount := round2 (ctx.subtotal * determineGSTRate ctx.orderTotal),
              taxableAmount := ctx.subtotal,
              hsnCode := some (getHSNCode ctx.productType ctx.hsnCode) }
      else
        .ok { gstType := .IGST, gstRate := determineGSTRate ctx.orderTotal,
              igstAmount := some (round2 (ctx.subtotal * determineGSTRate ctx.orderTotal)),
              totalGstAmount := round2 (ctx.subtotal * determineGSTRate ctx.orderTotal),
              taxableAmount := ctx.subtotal,
              hsnCode := some (getHSNCode ctx.productType ctx.hsnCode) }) := by
  obtain ⟨-, -, hcs, hss⟩ := validateGSTContext_eq_nil h
  unfold calculateGST
  rw [if_neg (by simp [h]), normalizeStateCode_of_isIndianState hcs,
    normalizeStateCode_of_isIndianState hss]

/-- Rounding one half of an integer amount of cents: doubling the rounded
half gives the amount back when it is even, one more when it is odd. -/
lemma two_mul_round_half (m : ℤ) :
    2 * (round ((m : ℚ) / 2) : ℤ) = if 2 ∣ m then m else m + 1 := by
  rcases Int.even_or_odd m with ⟨k, hk⟩ | ⟨k, hk⟩
  · subst hk
    have h2 : ((k + k : ℤ) : ℚ) / 2 = (k : ℚ) := by push_cast; ring
    rw [h2, round_intCast, if_pos ⟨k, by ring⟩]
    ring
  · subst hk
    have h2 : ((2 * k + 1 : ℤ) : ℚ) / 2 = (k : ℚ) + 1 / 2 := by push_cast; ring
    have hr : round ((k : ℚ) + 1 / 2) = k + 1 := by
      rw [round_eq]
      have : (k : ℚ) + 1 / 2 + 1 / 2 = ((k + 1 : ℤ) : ℚ) := by push_cast; ring
      rw [this, Int.floor_intCast]
    rw [h2, hr, if_neg]
    · ring
    · intro ⟨j, hj⟩
      omega

lemma determineGSTRate_eq_iff (x : ℚ) :
    (determineGSTRate x = DEFAULT_GST_CONFIG.lowRate ↔ x < DEFAULT_GST_CONFIG.threshold) ∧
    (determineGSTRate x = DEFAULT_GST_CONFIG.highRate ↔ ¬ x < DEFAULT_GST_CONFIG.threshold) := by
  have hne : DEFAULT_GST_CONFIG.lowRate ≠ DEFAULT_GST_CONFIG.highRate := by
    norm_num [DEFAULT_GST_CONFIG]
  unfold determineGSTRate
  by_cases hlt : x < DEFAULT_GST_CONFIG.threshold
  · simp [hlt, hne]
  · simp [hlt, Ne.symm hne]

/-- Claim C2, counterexample: on a validated input with subtotal 800 (below
the 1000 threshold) but order total 1500, `calculateGST` uses the high rate:
the rate is driven by the order total, not by the taxable subtotal. -/
theorem gstRate_subtotal_claim_false :
    validateGSTContext
        { orderTotal := 1500, subtotal := 800, customerState := "MH", storeState := "MH" } = [] ∧
    (800 : ℚ) < DEFAULT_GST_CONFIG.threshold ∧
    calculateGST
        { orderTotal := 1500, subtotal := 800, customerState := "MH", storeState := "MH" } =
      .ok { gstType := .CGST_SGST, gstRate := 12 / 100, cgstAmount := some 48,
            sgstAmount := some 48, totalGstAmount := 96, taxableAmount := 800,
            hsnCode := some "6109" } ∧
    (12 / 100 : ℚ) ≠ DEFAULT_GST_CONFIG.lowRate := by
  refine ⟨by decide, by norm_num [DEFAULT_GST_CONFIG], ?_, by norm_num [DEFAULT_GST_CONFIG]⟩
  rw [calculateGST_of_valid (by decide), if_pos rfl]
  norm_num [determineGSTRate, DEFAULT_GST_CONFIG, round2, round_eq, getHSNCode,
    getHSNCodeFromType, TEXTILE_HSN_CODES]

/-- Claim C2, amended: for every input accepted by validation the GST rate
used by `calculateGST` equals the low rate (0.05) iff the ORDER TOTAL is
below the threshold (1000), and equals the high rate (0.12) otherwise. -/
theorem gstRate_matches_orderTotal_threshold (ctx : GSTCalculationContext)
    (h : validateGSTContext ctx = []) :
    ∃ b, calculateGST ctx = .ok b ∧
      (b.gstRate = DEFAULT_GST_CONFIG.lowRate ↔ ctx.orderTotal < DEFAULT_GST_CONFIG.threshold) ∧
      (b.gstRate = DEFAULT_GST_CONFIG.highRate ↔ ¬ ctx.orderTotal < DEFAULT_GST_CONFIG.threshold) := by
  rw [calculateGST_of_valid h]
  by_cases hs : jsToUpper ctx.customerState = jsToUpper ctx.storeState
  · rw [if_pos hs]
    exact ⟨_, rfl, (determineGSTRate_eq_iff ctx.orderTotal).1,
      (determineGSTRate_eq_iff ctx.orderTotal).2⟩
  · rw [if_neg hs]
    exact ⟨_, rfl, (determineGSTRate_eq_iff ctx.orderTotal).1,
      (determineGSTRate_eq_iff ctx.orderTotal).2⟩

/-- Witness for C2's amended theorem at the spec's own scenario
(subtotal 800, MH → MH). -/
theorem gstRate_matches_orderTotal_threshold_witness :
    ∃ b, calculateGST
        { orderTotal := 800, subtotal := 800, customerState := "MH", storeState := "MH" } = .ok b ∧
      (b.gstRate = DEFAULT_GST_CONFIG.lowRate ↔ (800 : ℚ) < DEFAULT_GST_CONFIG.threshold) ∧
      (b.gstRate = DEFAULT_GST_CONFIG.highRate ↔ ¬ (800 : ℚ) < DEFAULT_GST_CONFIG.threshold) :=
  gstRate_matches_orderTotal_threshold
    { orderTotal := 800, subtotal := 800, customerState := "MH", storeState := "MH" } (by decide)

/-- Claim C3, counterexample: subtotal ₹1 intrastate gives total GST ₹0.05,
but both components round to ₹0.03, so their sum is ₹0.06 — one cent MORE
than the computed total tax; no reconciliation into one component happens. -/
theorem intrastate_split_exact_sum_false :
    calculateGST { orderTotal := 1, subtotal := 1, customerState := "MH", storeState := "MH" } =
      .ok { gstType := .CGST_SGST, gstRate := 5 / 100, cgstAmount := some (3 / 100),
            sgstAmount := some (3 / 100), totalGstAmount := 5 / 100, taxableAmount := 1,
            hsnCode := some "6109" } ∧
    (3 / 100 : ℚ) + 3 / 100 ≠ 5 / 100 := by
  constructor
  · rw [calculateGST_of_valid (by decide), if_pos rfl]
    norm_num [determineGSTRate, DEFAULT_GST_CONFIG, round2, round_eq, getHSNCode,
      getHSNCodeFromType, TEXTILE_HSN_CODES]
  · norm_num

/-- Halving a rounded amount and rounding each half at cent precision: the
two halves add back to the amount when its cent count is even, and overshoot
by exactly one cent when it is odd. -/
lemma round2_half_sum (x : ℚ) :
    (2 ∣ round (x * 100) →
      round2 (round2 x / 2) + round2 (round2 x / 2) = round2 x) ∧
    (¬ 2 ∣ round (x * 100) →
      round2 (round2 x / 2) + round2 (round2 x / 2) = round2 x + 1 / 100) := by
  set m : ℤ := round (x * 100) with hm
  have h1 : round2 x = (m : ℚ) / 100 := by rw [round2, ← hm]
  have h2 : round2 (round2 x / 2) = ((round ((m : ℚ) / 2) : ℤ) : ℚ) / 100 := by
    have harg : round2 x / 2 * 100 = (m : ℚ) / 2 := by rw [h1]; ring
    rw [round2, harg]
  have hdouble : ((round ((m : ℚ) / 2) : ℤ) : ℚ) / 100 + ((round ((m : ℚ) / 2) : ℤ) : ℚ) / 100 =
      ((2 * round ((m : ℚ) / 2) : ℤ) : ℚ) / 100 := by
    push_cast
    ring
  have hsum := two_mul_round_half m
  constructor <;> intro hdvd
  · rw [if_pos hdvd] at hsum
    rw [h2, h1, hdouble, hsum]
  · rw [if_neg hdvd] at hsum
    rw [h2, h1, hdouble, hsum]
    push_cast
    ring

/-- Claim C3, amended: for validated intrastate inputs both components equal
the rounded half of the total tax; their sum equals the total exactly when
the total has an even number of paise, and exceeds it by exactly one paisa
when odd — the remainder is never reconciled into either component. -/
theorem intrastate_split_spec (ctx : GSTCalculationContext)
    (hv : validateGSTContext ctx = [])
    (hs : jsToUpper ctx.customerState = jsToUpper ctx.storeState) :
    ∃ b, calculateGST ctx = .ok b ∧
      b.gstType = .CGST_SGST ∧
      b.cgstAmount = some (round2 (b.totalGstAmount / 2)) ∧
      b.sgstAmount = some (round2 (b.totalGstAmount / 2)) ∧
      (2 ∣ round (ctx.subtotal * determineGSTRate ctx.orderTotal * 100) →
        round2 (b.totalGstAmount / 2) + round2 (b.totalGstAmount / 2) = b.totalGstAmount) ∧
      (¬ 2 ∣ round (ctx.subtotal * determineGSTRate ctx.orderTotal * 100) →
        round2 (b.totalGstAmount / 2) + round2 (b.totalGstAmount / 2) =
          b.totalGstAmount + 1 / 100) := by
  rw [calculateGST_of_valid hv, if_pos hs]
  exact ⟨_, rfl, rfl, rfl, rfl,
    (round2_half_sum (ctx.subtotal * determineGSTRate ctx.orderTotal)).1,
    (round2_half_sum (ctx.subtotal * determineGSTRate ctx.orderTotal)).2⟩

/-- Witness for C3's amended theorem at the spec's scenario subtotal 800,
MH → MH (total ₹40 splits exactly into ₹20 + ₹20). -/
theorem intrastate_split_spec_witness :
    ∃ b, calculateGST
        { orderTotal := 800, subtotal := 800, customerState := "MH", storeState := "MH" } = .ok b ∧
      b.gstType = .CGST_SGST ∧
      b.cgstAmount = some (round2 (b.totalGstAmount / 2)) ∧
      b.sgstAmount = some (round2 (b.totalGstAmount / 2)) ∧
      (2 ∣ round ((800 : ℚ) * determineGSTRate 800 * 100) →
        round2 (b.totalGstAmount / 2) + round2 (b.totalGstAmount / 2) = b.totalGstAmount) ∧
      (¬ 2 ∣ round ((800 : ℚ) * determineGSTRate 800 * 100) →
        round2 (b.totalGstAmount / 2) + round2 (b.totalGstAmount / 2) =
          b.totalGstAmount + 1 / 100) :=
  intrastate_split_spec
    { orderTotal := 800, subtotal := 800, customerState := "MH", storeState := "MH" }
    (by decide) rfl

/-- Claim C6: on any invalid input `calculateGST` attempts no tax computation
and returns the single `VALIDATION_ERROR` failure whose message joins the
accumulated violation list, and that list carries EVERY violated condition,
not only the first. -/
theorem validation_error_lists_all_violations (ctx : GSTCalculationContext)
    (h : validateGSTContext ctx ≠ []) :
    calculateGST ctx =
      .error ⟨"VALIDATION_ERROR", String.intercalate ", " (validateGSTContext ctx)⟩ ∧
    (ctx.orderTotal ≤ 0 → "Order total must be greater than 0" ∈ validateGSTContext ctx) ∧
    (ctx.subtotal ≤ 0 → "Subtotal must be greater than 0" ∈ validateGSTContext ctx) ∧
    (jsTrim ctx.customerState = "" → "Customer state is required" ∈ validateGSTContext ctx) ∧
    (jsTrim ctx.storeState = "" → "Store state is required" ∈ validateGSTContext ctx) ∧
    (ctx.customerState ≠ "" → isIndianState (jsToUpper ctx.customerState) = false →
      ("Invalid customer state code: " ++ ctx.customerState) ∈ validateGSTContext ctx) ∧
    (ctx.storeState ≠ "" → isIndianState (jsToUpper ctx.storeState) = false →
      ("Invalid store state code: " ++ ctx.storeState) ∈ validateGSTContext ctx) := by
  refine ⟨?_, fun hc => orderTotal_err_mem hc, fun hc => subtotal_err_mem hc,
    fun hc => customerRequired_err_mem hc, fun hc => storeRequired_err_mem hc,
    fun h1 h2 => customerInvalid_err_mem h1 h2, fun h1 h2 => storeInvalid_err_mem h1 h2⟩
  simp only [calculateGST, ne_eq, h, not_false_iff, if_true]

/-- Witness for C6 at a concrete input violating four conditions at once
(order total ≤ 0, subtotal ≤ 0, blank store state, unknown customer state). -/
theorem validation_error_lists_all_violations_witness :
    calculateGST { orderTotal := -5, subtotal := 0, customerState := "XX", storeState := " " } =
      .error ⟨"VALIDATION_ERROR", String.intercalate ", "
        (validateGSTContext
          { orderTotal := -5, subtotal := 0, customerState := "XX", storeState := " " })⟩ ∧
    "Order total must be greater than 0" ∈ validateGSTContext
      { orderTotal := -5, subtotal := 0, customerState := "XX", storeState := " " } ∧
    "Subtotal must be greater than 0" ∈ validateGSTContext
      { orderTotal := -5, subtotal := 0, customerState := "XX", storeState := " " } ∧
    "Store state is required" ∈ validateGSTContext
      { orderTotal := -5, subtotal := 0, customerState := "XX", storeState := " " } ∧
    ("Invalid customer state code: " ++ "XX") ∈ validateGSTContext
      { orderTotal := -5, subtotal := 0, customerState := "XX", storeState := " " } := by
  have h := validation_error_lists_all_violations
    { orderTotal := -5, subtotal := 0, customerState := "XX", storeState := " " } (by decide)
  exact ⟨h.1, h.2.1 (by norm_num), h.2.2.1 (by norm_num), h.2.2.2.2.1 (by decide),
    h.2.2.2.2.2.1 (by decide) (by decide)⟩

/-! ## Claim C9: the HSN resolver -/

/-- Claim C9, counterexample: an explicit code that is non-empty after
trimming is NOT used verbatim — `getHSNCode` returns its trimmed value. -/
theorem hsn_explicit_code_not_verbatim :
    jsTrim " 6109 " ≠ "" ∧
    getHSNCode none (some " 6109 ") ≠ " 6109 " ∧
    getHSNCode none (some " 6109 ") = "6109" := by
  refine ⟨by decide, by decide, by decide⟩

/-- The priority table of the amended claim: a blend/mixed hint outranks
cotton, which outranks polyester. -/
def hsnPriorityTable : List (List String × String) :=
  [ (["blend", "mix"], "6109.90"),
    (["cotton"], "6109.10"),
    (["polyester"], "6109.90") ]

/-- Hint inference as the amended claim words it: the first priority-table
entry whose keyword occurs in the lowered hint wins; no match (or no hint)
gives the single default classification code. -/
def hsnInferFromHint (productType : Option String) : String :=
  match productType with
  | some p =>
    match hsnPriorityTable.find? (fun e => e.1.any (fun kw => jsIncludes (jsToLower p) kw)) with
    | some e => e.2
    | none => "6109"
  | none => "6109"

/-- The whole resolver as the amended claim words it: a supplied code that is
non-empty after trimming is used in its trimmed form; otherwise the hint
inference decides. -/
def hsnResolverSpec (productType : Option String) (hsnCode : Option String) : String :=
  match hsnCode with
  | some h => if jsTrim h = "" then hsnInferFromHint productType else jsTrim h
  | none => hsnInferFromHint productType

/-- Claim C9, amended: `getHSNCode` is the pure function of the amended
claim — explicit codes are used in trimmed form, otherwise the blend/mix >
cotton > polyester priority decides, with a single default fallback.  As a
Lean function it is deterministic by construction. -/
theorem getHSNCode_matches_amended_spec :
    ∀ productType hsnCode, getHSNCode productType hsnCode = hsnResolverSpec productType hsnCode := by
  intro pt hc
  have hinfer : getHSNCodeFromType pt = hsnInferFromHint pt := by
    cases pt with
    | none => rfl
    | some p =>
      cases hb : jsIncludes (jsToLower p) "blend" <;>
        cases hmx : jsIncludes (jsToLower p) "mix" <;>
        cases hco : jsIncludes (jsToLower p) "cotton" <;>
        cases hpo : jsIncludes (jsToLower p) "polyester" <;>
        simp [getHSNCodeFromType, hsnInferFromHint, hsnPriorityTable, List.find?,
          hb, hmx, hco, hpo, TEXTILE_HSN_CODES]
  cases hc with
  | none => exact hinfer
  | some h =>
    by_cases ht : jsTrim h = ""
    · simp [getHSNCode, hsnResolverSpec, ht, hinfer]
    · simp [getHSNCode, hsnResolverSpec, ht, hinfer]

/-! ## The bulk invoice queue processor (`bulkInvoiceService` / `initializeQueueProcessor`) -/

/-- The payload of a `job.progress(...)` write. -/
structure BulkProgress where
  percent : ℤ
  total : ℕ
  completed : ℕ
  failed : ℕ
  downloadUrl : Option String := none
deriving DecidableEq, Repr

/-- `Math.round(((i + 1) / total) * 100)` of the processor, in exact
arithmetic (`processed` is `i + 1`). -/
def percentOf (processed total : ℕ) : ℤ :=
  round (((processed : ℚ) / (total : ℚ)) * 100)

/-- The loop state of the processor: counters, the successful file names in
order, and the sequence of progress writes (one slot per item; `none` when
the item wrote no progress). -/
structure RunState where
  completed : ℕ
  failed : ℕ
  files : List String
  writes : List (Option BulkProgress)
deriving DecidableEq, Repr

/-- The `for` loop of the queue processor over the enumerated order ids:
a successful `generateInvoiceFn` pushes the file, bumps `completed` and
persists a progress write; a thrown failure is caught, bumps `failed`, and
continues with NO progress write. -/
def runItems (gen : String → Except String String) (total : ℕ) :
    List (ℕ × String) → ℕ → ℕ → List String → RunState
  | [], completed, failed, files => ⟨completed, failed, files, []⟩
  | (i, orderId) :: rest, completed, failed, files =>
    match gen orderId with
    | .ok fileName =>
      let out := runItems gen total rest (completed + 1) failed (files ++ [fileName])
      { out with writes :=
          (some { percent := percentOf (i + 1) total, total := total,
                  completed := completed + 1, failed := failed } : Option BulkProgress)
            :: out.writes }
    | .error _ =>
      let out := runItems gen total rest completed (failed + 1) files
      { out with writes := none :: out.writes }

/-- `BulkInvoiceService.createZipFile`: the archive holds exactly the given
file names, in the order they are added. -/
structure ZipArchive where
  zipFileName : String
  entries : List String
deriving DecidableEq, Repr

def createZipFile (shop : String) (timestamp : ℕ) (invoiceFiles : List String) : ZipArchive :=
  { zipFileName := "invoices-" ++ toString timestamp ++ ".zip",
    entries := invoiceFiles }

/-- `BulkInvoiceService.getDownloadUrl`. -/
def getDownloadUrl (shop fileName : String) : String :=
  "/api/download/" ++ fileName ++ "?shop=" ++ shop

/-- The processor's returned job value plus its observable effects. -/
structure BulkResult where
  success : Bool
  total : ℕ
  completed : ℕ
  failed : ℕ
  downloadUrl : String
  archive : List String
  writes : List (Option BulkProgress)
deriving DecidableEq, Repr

/-- The whole `invoiceQueue.process` callback of `initializeQueueProcessor`:
run the loop, zip the successfully generated files, and emit the final
100% progress write carrying the download url. -/
def processBulkJob (gen : String → Except String String) (shop : String)
    (timestamp : ℕ) (orderIds : List String) : BulkResult :=
  let total := orderIds.length
  let out := runItems gen total orderIds.enum 0 0 []
  let zip := createZipFile shop timestamp out.files
  let url := getDownloadUrl shop zip.zipFileName
  { success := true, total := total, completed := out.completed,
    failed := out.failed, downloadUrl := url, archive := zip.entries,
    writes := out.writes ++
      [some { percent := 100, total := total, completed := out.completed,
              failed := out.failed, downloadUrl := some url }] }

lemma toOption_ok (a : String) : (Except.ok a : Except String String).toOption = some a :=
  rfl

lemma toOption_error (e : String) :
    (Except.error e : Except String String).toOption = none :=
  rfl

lemma runItems_spec (gen : String → Except String String) (total : ℕ) :
    ∀ (l : List (ℕ × String)) (completed failed : ℕ) (files : List String),
      (runItems gen total l completed failed files).completed =
          completed + l.countP (fun p => (gen p.2).toOption.isSome) ∧
      (runItems gen total l completed failed files).failed =
          failed + l.countP (fun p => (gen p.2).toOption.isNone) ∧
      (runItems gen total l completed failed files).files =
          files ++ l.filterMap (fun p => (gen p.2).toOption) ∧
      (runItems gen total l completed failed files).writes.map
            (Option.map BulkProgress.percent) =
          l.map (fun p => (gen p.2).toOption.map (fun _ => percentOf (p.1 + 1) total)) := by
  intro l
  induction l with
  | nil => intro completed failed files; simp [runItems]
  | cons hd rest ih =>
    intro completed failed files
    obtain ⟨i, orderId⟩ := hd
    cases h : gen orderId with
    | ok fileName =>
      obtain ⟨ih1, ih2, ih3, ih4⟩ := ih (completed + 1) failed (files ++ [fileName])
      refine ⟨?_, ?_, ?_, ?_⟩ <;>
        simp [runItems, h, ih1, ih2, ih3, ih4, List.countP_cons, List.filterMap_cons,
          toOption_ok] <;> omega
    | error e =>
      obtain ⟨ih1, ih2, ih3, ih4⟩ := ih completed (failed + 1) files
      refine ⟨?_, ?_, ?_, ?_⟩ <;>
        simp [runItems, h, ih1, ih2, ih3, ih4, List.countP_cons, List.filterMap_cons,
          toOption_error] <;> omega

lemma countP_isSome_add_isNone (gen : String → Except String String) (l : List String) :
    l.countP (fun oid => (gen oid).toOption.isSome) +
      l.countP (fun oid => (gen oid).toOption.isNone) = l.length := by
  induction l with
  | nil => rfl
  | cons a t ih =>
    cases h : gen a <;>
      simp [List.countP_cons, h, toOption_ok, toOption_error] <;> omega

lemma length_filterMap_toOption (gen : String → Except String String) (l : List String) :
    (l.filterMap (fun oid => (gen oid).toOption)).length =
      l.countP (fun oid => (gen oid).toOption.isSome) := by
  induction l with
  | nil => rfl
  | cons a t ih =>
    cases h : gen a <;>
      simp [List.filterMap_cons, List.countP_cons, h, toOption_ok, toOption_error, ih]

lemma enum_countP_snd (q : String → Bool) (l : List String) :
    l.enum.countP (fun p => q p.2) = l.countP q := by
  conv_rhs => rw [← List.enum_map_snd l]
  rw [List.countP_map]
  rfl

lemma enum_filterMap_snd (g : String → Option String) (l : List String) :
    l.enum.filterMap (fun p => g p.2) = l.filterMap g := by
  conv_rhs => rw [← List.enum_map_snd l]
  rw [List.filterMap_map]
  rfl

/-- Claim C4: over N order ids with exactly k failing items, the processor
catches every item failure and keeps going; it finishes with
completed = N - k, failed = k, a final persisted progress of 100 carrying a
download url, and an archive holding exactly the N - k successfully
generated files in input order. -/
theorem bulk_partial_failure_accounting (gen : String → Except String String)
    (shop : String) (timestamp : ℕ) (orderIds : List String) :
    (processBulkJob gen shop timestamp orderIds).completed =
        orderIds.length - orderIds.countP (fun oid => (gen oid).toOption.isNone) ∧
    (processBulkJob gen shop timestamp orderIds).failed =
        orderIds.countP (fun oid => (gen oid).toOption.isNone) ∧
    (processBulkJob gen shop timestamp orderIds).completed +
        (processBulkJob gen shop timestamp orderIds).failed = orderIds.length ∧
    (processBulkJob gen shop timestamp orderIds).archive =
        orderIds.filterMap (fun oid => (gen oid).toOption) ∧
    (processBulkJob gen shop timestamp orderIds).archive.length =
        orderIds.length - orderIds.countP (fun oid => (gen oid).toOption.isNone) ∧
    (processBulkJob gen shop timestamp orderIds).writes.getLast? =
        some (some ⟨100, orderIds.length,
          (processBulkJob gen shop timestamp orderIds).completed,
          (processBulkJob gen shop timestamp orderIds).failed,
          some (processBulkJob gen shop timestamp orderIds).downloadUrl⟩) ∧
    (processBulkJob gen shop timestamp orderIds).success = true := by
  obtain ⟨h1, h2, h3, h4⟩ := runItems_spec gen orderIds.length orderIds.enum 0 0 []
  have hsome := enum_countP_snd (fun oid => (gen oid).toOption.isSome) orderIds
  have hnone := enum_countP_snd (fun oid => (gen oid).toOption.isNone) orderIds
  have hfm := enum_filterMap_snd (fun oid => (gen oid).toOption) orderIds
  have hsum := countP_isSome_add_isNone gen orderIds
  have hlen := length_filterMap_toOption gen orderIds
  have hcompleted : (processBulkJob gen shop timestamp orderIds).completed =
      orderIds.countP (fun oid => (gen oid).toOption.isSome) := by
    simp [processBulkJob, h1, hsome]
  have hfailed : (processBulkJob gen shop timestamp orderIds).failed =
      orderIds.countP (fun oid => (gen oid).toOption.isNone) := by
    simp [processBulkJob, h2, hnone]
  have harchive : (processBulkJob gen shop timestamp orderIds).archive =
      orderIds.filterMap (fun oid => (gen oid).toOption) := by
    simp [processBulkJob, createZipFile, h3, hfm]
  refine ⟨?_, hfailed, ?_, harchive, ?_, ?_, rfl⟩
  · rw [hcompleted]
    omega
  · rw [hcompleted, hfailed]
    omega
  · rw [harchive, hlen]
    omega
  · show (_ ++ [_]).getLast? = _
    rw [List.getLast?_concat]
    simp [processBulkJob, h1, h2]

/-! ## Claim C8: persisted progress -/

/-- The persisted progress after one more write slot: a write overwrites,
a skipped slot leaves the stored value. -/
def persistedStep (acc : ℤ) (w : Option ℤ) : ℤ :=
  match w with
  | some v => v
  | none => acc

/-- The persisted progress value after each slot of a write sequence,
starting from `start` (a print job starts at progress 0). -/
def persistedTrace (start : ℤ) : List (Option ℤ) → List ℤ
  | [] => []
  | w :: ws => persistedStep start w :: persistedTrace (persistedStep start w) ws

/-- The persisted progress after all writes. -/
def persistedFinal (ws : List (Option ℤ)) : ℤ :=
  ws.foldl persistedStep 0

/-- The percent component of each progress write of a bulk run. -/
def percentWrites (r : BulkResult) : List (Option ℤ) :=
  r.writes.map (Option.map BulkProgress.percent)

lemma persistedTrace_chain (start : ℤ) (ws : List (Option ℤ))
    (hstart : ∀ v ∈ ws.filterMap id, start ≤ v)
    (hpair : List.Pairwise (· ≤ ·) (ws.filterMap id)) :
    List.Chain' (· ≤ ·) (start :: persistedTrace start ws) := by
  induction ws generalizing start with
  | nil => simp [persistedTrace]
  | cons w rest ih =>
    cases w with
    | none =>
      have hrec := ih start (by simpa using hstart) (by simpa using hpair)
      exact List.chain'_cons.mpr ⟨le_refl start, hrec⟩
    | some v =>
      rw [List.filterMap_cons] at hstart hpair
      simp only [id] at hstart hpair
      rw [List.pairwise_cons] at hpair
      have hsv : start ≤ v := hstart v (List.mem_cons_self _ _)
      have hrest : ∀ u ∈ rest.filterMap id, v ≤ u := hpair.1
      exact List.chain'_cons.mpr ⟨hsv, ih v hrest hpair.2⟩

lemma round_mono_q {x y : ℚ} (h : x ≤ y) : round x ≤ round y := by
  rw [round_eq, round_eq]
  exact Int.floor_mono (by linarith)

lemma percentOf_nonneg (p total : ℕ) : 0 ≤ percentOf p total := by
  rw [percentOf, round_eq]
  refine Int.le_floor.mpr ?_
  have h : (0 : ℚ) ≤ ((p : ℚ) / (total : ℚ)) * 100 := by positivity
  push_cast
  linarith

lemma percentOf_mono {p q : ℕ} (total : ℕ) (h : p ≤ q) :
    percentOf p total ≤ percentOf q total := by
  unfold percentOf
  refine round_mono_q ?_
  rcases Nat.eq_zero_or_pos total with h0 | hpos
  · subst h0
    norm_num
  · have hc : (0 : ℚ) < (total : ℚ) := by exact_mod_cast hpos
    have : (p : ℚ) / total ≤ (q : ℚ) / total := by
      apply div_le_div_of_nonneg_right ?_ hc.le
      · exact_mod_cast h
    linarith

lemma percentOf_le_100 {p total : ℕ} (h : p ≤ total) : percentOf p total ≤ 100 := by
  unfold percentOf
  have h100 : round ((100 : ℚ)) = 100 := by
    rw [show (100 : ℚ) = ((100 : ℤ) : ℚ) by norm_num, round_intCast]
  rcases Nat.eq_zero_or_pos total with h0 | hpos
  · subst h0
    rw [← h100]
    refine round_mono_q ?_
    norm_num
  · have hc : (0 : ℚ) < (total : ℚ) := by exact_mod_cast hpos
    have hdiv : (p : ℚ) / total ≤ 1 := by
      rw [div_le_one hc]
      exact_mod_cast h
    rw [← h100]
    refine round_mono_q ?_
    nlinarith

lemma pairwise_fst_lt_enumFrom (l : List String) :
    ∀ n : ℕ, List.Pairwise (fun p q : ℕ × String => p.1 < q.1) (l.enumFrom n) := by
  induction l with
  | nil =>
    intro n
    simp
  | cons a t ih =>
    intro n
    refine List.pairwise_cons.mpr ⟨?_, ih (n + 1)⟩
    intro q hq
    obtain ⟨i, s⟩ := q
    have hm := List.mem_enumFrom hq
    have : n + 1 ≤ i := hm.1
    simpa using by omega

lemma percent_slot_eq {gen : String → Except String String} {N : ℕ} {p : ℕ × String} {b : ℤ}
    (hb : b ∈ ((gen p.2).toOption.map (fun _ => percentOf (p.1 + 1) N))) :
    b = percentOf (p.1 + 1) N := by
  cases hgen : gen p.2 with
  | ok s =>
    rw [hgen, toOption_ok] at hb
    simpa using hb.symm
  | error e =>
    rw [hgen, toOption_error] at hb
    simp at hb

/-- Claim C8, amended: a progress write happens only after each SUCCESSFUL
item (with value `round(100 * (i+1) / N)` for the item's position `i`),
failed items persist nothing, and one final write of 100 closes the job;
starting from 0 the persisted progress is monotonically non-decreasing and
finishes at 100. -/
theorem bulk_progress_writes_spec (gen : String → Except String String)
    (shop : String) (timestamp : ℕ) (orderIds : List String) :
    percentWrites (processBulkJob gen shop timestamp orderIds) =
        orderIds.enum.map (fun p =>
          (gen p.2).toOption.map (fun _ => percentOf (p.1 + 1) orderIds.length)) ++
        [some 100] ∧
    List.Chain' (· ≤ ·)
      (0 :: persistedTrace 0 (percentWrites (processBulkJob gen shop timestamp orderIds))) ∧
    persistedFinal (percentWrites (processBulkJob gen shop timestamp orderIds)) = 100 := by
  obtain ⟨h1, h2, h3, h4⟩ := runItems_spec gen orderIds.length orderIds.enum 0 0 []
  have hw : percentWrites (processBulkJob gen shop timestamp orderIds) =
      orderIds.enum.map (fun p =>
        (gen p.2).toOption.map (fun _ => percentOf (p.1 + 1) orderIds.length)) ++
      [some 100] := by
    simp [percentWrites, processBulkJob, h4]
  have hfm : (orderIds.enum.map (fun p =>
        (gen p.2).toOption.map (fun _ => percentOf (p.1 + 1) orderIds.length)) ++
        [some (100 : ℤ)]).filterMap id =
      orderIds.enum.filterMap (fun p =>
        (gen p.2).toOption.map (fun _ => percentOf (p.1 + 1) orderIds.length)) ++
      [(100 : ℤ)] := by
    rw [List.filterMap_append, List.filterMap_map]
    simp
  refine ⟨hw, ?_, ?_⟩
  · rw [hw]
    apply persistedTrace_chain
    · rw [hfm]
      intro v hv
      rcases List.mem_append.mp hv with hv | hv
      · obtain ⟨p, hp, hpv⟩ := List.mem_filterMap.mp hv
        rw [percent_slot_eq hpv]
        exact percentOf_nonneg _ _
      · simp at hv
        omega
    · rw [hfm]
      rw [List.pairwise_append]
      refine ⟨?_, by simp, ?_⟩
      · have hpl : List.Pairwise (fun p q : ℕ × String => p.1 < q.1) orderIds.enum :=
          pairwise_fst_lt_enumFrom orderIds 0
        refine List.pairwise_filterMap.mpr ?_
        refine hpl.imp ?_
        intro p q hpq b hb b' hb'
        rw [percent_slot_eq hb, percent_slot_eq hb']
        exact percentOf_mono orderIds.length (by omega)
      · intro a ha b hb
        rw [List.mem_singleton] at hb
        subst hb
        obtain ⟨p, hp, hpv⟩ := List.mem_filterMap.mp ha
        rw [percent_slot_eq hpv]
        obtain ⟨i, s⟩ := p
        have hm := List.mem_enumFrom hp
        exact percentOf_le_100 (by have := hm.2.1; simpa using by omega)
  · rw [hw]
    rw [persistedFinal, List.foldl_append]
    rfl

/-- Claim C8, counterexample: with orders [a, b] where a fails and b
succeeds, the run persists NO progress after the failed first item (the
persisted value is still 0, not round(100·1/2) = 50); the claim's
"after every item" write discipline does not hold. -/
theorem bulk_progress_missing_after_failure :
    percentWrites (processBulkJob
        (fun oid => if oid = "a" then (Except.error "boom" : Except String String)
          else .ok (oid ++ ".pdf")) "shop" 0 ["a", "b"]) =
      [none, some 100, some 100] ∧
    persistedTrace 0 (percentWrites (processBulkJob
        (fun oid => if oid = "a" then (Except.error "boom" : Except String String)
          else .ok (oid ++ ".pdf")) "shop" 0 ["a", "b"])) = [0, 100, 100] ∧
    percentOf 1 2 = 50 ∧
    (0 : ℤ) ≠ 50 := by
  have hp2 : percentOf 2 2 = 100 := by norm_num [percentOf, round_eq]
  have hp1 : percentOf 1 2 = 50 := by norm_num [percentOf, round_eq]
  have hpw : percentWrites (processBulkJob
      (fun oid => if oid = "a" then (Except.error "boom" : Except String String)
        else .ok (oid ++ ".pdf")) "shop" 0 ["a", "b"]) =
      [none, some 100, some 100] := by
    simp [percentWrites, processBulkJob, runItems, createZipFile, getDownloadUrl,
      List.enum, List.enumFrom, hp2]
  refine ⟨hpw, ?_, hp1, by norm_num⟩
  rw [hpw]
  simp [persistedTrace, persistedStep]

/-! ## Claim C1: count-based invoice-number allocation under concurrency
(`app/routes/api.print.tsx`, lines 172–183) -/

/-- The settings row fields used by the allocator (`invoicePrefix` is the
field `invPre` here, `invoiceStartNumber` is `startNumber`). -/
structure InvoiceSettings where
  invPre : String
  startNumber : ℕ
deriving DecidableEq, Repr

/-- The invoice number the action builds:
`(settings?.invoicePrefix || "INV") + "-" + ((settings?.invoiceStartNumber || 1001) + invoiceCount)`
where `invoiceCount` is `db.invoice.count({ shop })` at read time. -/
def invoiceNumberFor (settings : Option InvoiceSettings) (invoiceCount : ℕ) : String :=
  (match settings with
    | some s => if s.invPre = "" then "INV" else s.invPre
    | none => "INV") ++ "-" ++
  toString ((match settings with
    | some s => if s.startNumber = 0 then 1001 else s.startNumber
    | none => 1001) + invoiceCount)

/-- One request thread of the allocator: `pc = 0` before the count query,
`pc = 1` between the count query and the invoice insert, `pc = 2` done. -/
structure AllocThread where
  pc : ℕ
  saved : ℕ
  result : Option String
deriving DecidableEq, Repr

/-- The shop-scoped database state and two concurrent request threads. -/
structure AllocWorld where
  invoices : List String
  threadA : AllocThread
  threadB : AllocThread
deriving DecidableEq, Repr

/-- One atomic step of a thread: first the `db.invoice.count` read, then the
number construction and `db.invoice.create` insert. -/
def stepThread (settings : Option InvoiceSettings) (invoices : List String)
    (t : AllocThread) : List String × AllocThread :=
  match t.pc with
  | 0 => (invoices, { t with pc := 1, saved := invoices.length })
  | 1 =>
    let n := invoiceNumberFor settings t.saved
    (invoices ++ [n], { t with pc := 2, result := some n })
  | _ => (invoices, t)

/-- Run an interleaving: `true` steps thread A, `false` steps thread B. -/
def runSchedule (settings : Option InvoiceSettings) :
    List Bool → AllocWorld → AllocWorld
  | [], w => w
  | b :: rest, w =>
    if b then
      let s := stepThread settings w.invoices w.threadA
      runSchedule settings rest { w with invoices := s.1, threadA := s.2 }
    else
      let s := stepThread settings w.invoices w.threadB
      runSchedule settings rest { w with invoices := s.1, threadB := s.2 }

/-- Claim C1, evaluated at the failing interleaving: with prefix INV, start
1001 and no existing invoices, two concurrent single-order requests that
both run their count query before either inserts produce the SAME invoice
number INV-1001, which is then stored twice — uniqueness fails. -/
theorem invoice_number_race :
    (runSchedule (some ⟨"INV", 1001⟩) [true, false, true, false]
        { invoices := [], threadA := ⟨0, 0, none⟩, threadB := ⟨0, 0, none⟩ }).threadA.result =
      some "INV-1001" ∧
    (runSchedule (some ⟨"INV", 1001⟩) [true, false, true, false]
        { invoices := [], threadA := ⟨0, 0, none⟩, threadB := ⟨0, 0, none⟩ }).threadB.result =
      some "INV-1001" ∧
    (runSchedule (some ⟨"INV", 1001⟩) [true, false, true, false]
        { invoices := [], threadA := ⟨0, 0, none⟩, threadB := ⟨0, 0, none⟩ }).invoices =
      ["INV-1001", "INV-1001"] := by
  refine ⟨by decide, by decide, by decide⟩

/-! ## Claim C7: the single-order generation action -/

/-- The result shape of `pdfService.generateOrderPDF`. -/
structure PDFResult where
  success : Bool
  buffer : Option String := none
  error : Option String := none
  filename : String := ""
deriving DecidableEq, Repr

/-- The value `fileStorage.storeFile` resolves with. -/
structure StoredFile where
  fileKey : String
  downloadUrl : String
deriving DecidableEq, Repr

inductive JobStatus where
  | processing
  | completed
  | failed
deriving DecidableEq, Repr

/-- The outcomes of the stages the action awaits, in order: the order fetch
(`null` when not found), the GST computation (which may throw), the PDF
render, the storage write, plus the settings row and the invoice count read
for numbering. -/
structure SingleStages where
  fetched : Option String
  gst : Except String Unit
  pdf : PDFResult
  stored : Except String StoredFile
  settings : Option InvoiceSettings
  invoiceCount : ℕ
deriving Repr

def exceptOk {ε α : Type} : Except ε α → Bool
  | .ok _ => true
  | .error _ => false

/-- All four stages succeeded (`pdfResult.success && pdfResult.buffer` is the
source's own success test for the render stage). -/
def stagesOk (st : SingleStages) : Bool :=
  st.fetched.isSome && exceptOk st.gst && (st.pdf.success && st.pdf.buffer.isSome) &&
    exceptOk st.stored

/-- What the request leaves behind: the print job's final status and error,
whether `db.invoice.create` ran, and the HTTP response. -/
structure SingleOutcome where
  jobStatus : JobStatus
  jobError : Option String
  invoiceCreated : Bool
  response : Except String StoredFile
deriving Repr

/-- The single-order branch of the action: each stage failure throws, the
catch block marks the print job failed and rethrows (a 500 response), and
`db.invoice.create` runs only after the PDF is rendered and stored. -/
def singleOrderAction (st : SingleStages) : SingleOutcome :=
  match st.fetched with
  | none =>
    { jobStatus := .failed, jobError := some "Order not found",
      invoiceCreated := false, response := .error "Order not found" }
  | some _ =>
    match st.gst with
    | .error e =>
      { jobStatus := .failed, jobError := some e,
        invoiceCreated := false, response := .error e }
    | .ok _ =>
      if st.pdf.success && st.pdf.buffer.isSome then
        match st.stored with
        | .error e =>
          { jobStatus := .failed, jobError := some e,
            invoiceCreated := false, response := .error e }
        | .ok f =>
          { jobStatus := .completed, jobError := none,
            invoiceCreated := true, response := .ok f }
      else
        let msg := match st.pdf.error with
          | some m => m
          | none => "Failed to generate PDF"
        { jobStatus := .failed, jobError := some msg,
          invoiceCreated := false, response := .error msg }

/-- Claim C7: if any stage (fetch, tax, render, storage) fails, the request
surfaces an error, the print job ends failed, and no InvoiceRecord is
created; an InvoiceRecord is created only when every stage through persist
succeeded (and then the job completes). -/
theorem single_order_failure_leaves_no_invoice (st : SingleStages) :
    (stagesOk st = false →
      exceptOk (singleOrderAction st).response = false ∧
      (singleOrderAction st).jobStatus = JobStatus.failed ∧
      (singleOrderAction st).invoiceCreated = false) ∧
    ((singleOrderAction st).invoiceCreated = true →
      stagesOk st = true ∧ (singleOrderAction st).jobStatus = JobStatus.completed) := by
  obtain ⟨fetched, gst, pdf, stored, settings, invoiceCount⟩ := st
  cases fetched <;> cases gst <;> cases stored <;>
    cases hs : pdf.success <;> cases hb : pdf.buffer <;>
    simp [singleOrderAction, stagesOk, exceptOk, hs, hb]

/-- Witness for C7: a run whose storage stage fails ends failed with no
invoice, and a fully successful run creates the invoice. -/
theorem single_order_failure_leaves_no_invoice_witness :
    (singleOrderAction
        { fetched := some "order", gst := .ok (), pdf := { success := true, buffer := some "pdf" },
          stored := .error "disk full", settings := none, invoiceCount := 0 }).jobStatus =
      JobStatus.failed ∧
    (singleOrderAction
        { fetched := some "order", gst := .ok (), pdf := { success := true, buffer := some "pdf" },
          stored := .error "disk full", settings := none, invoiceCount := 0 }).invoiceCreated =
      false ∧
    (singleOrderAction
        { fetched := some "order", gst := .ok (), pdf := { success := true, buffer := some "pdf" },
          stored := .ok ⟨"k", "u"⟩, settings := none, invoiceCount := 0 }).invoiceCreated =
      true := by
  refine ⟨?_, ?_, ?_⟩
  · exact ((single_order_failure_leaves_no_invoice _).1 (by decide)).2.1
  · exact ((single_order_failure_leaves_no_invoice _).1 (by decide)).2.2
  · decide

/-! ## Claim C5: the storage gateway and the download route

File-system paths are modelled as their `/`-separated segment lists: a file
key string such as `shop/123-invoice.pdf` is the segment list
`["shop", "123-invoice.pdf"]` (its `String.split` on `/`), and Node's
`path.join`/`path.resolve` normalization of an absolute path is `normSegs`,
which drops empty and `.` segments and lets `..` pop one segment, clamping
at the root. -/

/-- The storage root `/var/www/letsprint/storage/invoices` as segments. -/
def storageRoot : List String :=
  ["var", "www", "letsprint", "storage", "invoices"]

/-- One normalization step of `path.resolve` on an absolute path. -/
def normStep (acc : List String) (s : String) : List String :=
  if s = "" ∨ s = "." then acc
  else if s = ".." then acc.dropLast
  else acc ++ [s]

/-- `path.resolve` (and `path.join`) normalization of an absolute path. -/
def normSegs (segs : List String) : List String :=
  segs.foldl normStep []

/-- Render a segment list back to the absolute path string, for the
source's `String.startsWith` containment check. -/
def pathStr (segs : List String) : String :=
  "/" ++ String.intercalate "/" segs

/-- The character-level sanitizer `replace(/[^a-zA-Z0-9-_.]/g, '-')` used by
both `sanitizeShopName` and `sanitizeFilename`. -/
def sanitizeChar (c : Char) : Char :=
  if c.isAlphanum ∨ c = '-' ∨ c = '_' ∨ c = '.' then c else '-'

def sanitizeShopName (shop : String) : String :=
  String.mk (shop.toList.map sanitizeChar)

def sanitizeFilename (filename : String) : String :=
  String.mk (filename.toList.map sanitizeChar)

/-- The file key `storeFile` generates:
`${sanitizeShopName(shop)}/${timestamp}-${sanitizeFilename(filename)}`,
as its two path segments (neither part can contain a `/`: the sanitizers
replace every character outside `[a-zA-Z0-9-_.]` and the timestamp is a
decimal number). -/
def storeFileKey (shop : String) (timestamp : ℕ) (filename : String) : List String :=
  [sanitizeShopName shop, toString timestamp ++ "-" ++ sanitizeFilename filename]

/-- `FileStorageService.getFile`: join the key under the storage root,
resolve, reject paths whose string form escapes the root, then read; every
thrown error surfaces as `.error`. -/
def getFile (fs : List String → Option String) (fileKey : List String) :
    Except String String :=
  let resolvedPath := normSegs (storageRoot ++ fileKey)
  if (pathStr resolvedPath).startsWith (pathStr (normSegs storageRoot)) then
    match fs resolvedPath with
    | none => .error "File not found"
    | some data => .ok data
  else
    .error "Invalid file path"

/-- An `invoice` table row, as the download route reads it. -/
structure InvoiceRow where
  shop : String
  fileKey : List String
  invoiceNumber : String
deriving DecidableEq, Repr

inductive DownloadResponse where
  | ok (data : String)
  | notFound (msg : String)
  | serverError (msg : String)
deriving DecidableEq, Repr

/-- The `api.download.$fileKey` loader for an authenticated `shop` session:
find an invoice row matching BOTH the decoded key and the session's shop
(404 when none), then read the file from storage (any storage error is
returned as 404).  The key here is the already URI-decoded route parameter;
the 400 branch for an absent parameter (which cannot carry any key) is
outside the model. -/
def downloadLoader (db : List InvoiceRow) (fs : List String → Option String)
    (shop : String) (fileKey : List String) : DownloadResponse :=
  match db.find? (fun inv => inv.fileKey == fileKey && inv.shop == shop) with
  | none => .notFound "Invoice not found"
  | some _ =>
    match getFile fs fileKey with
    | .error _ => .notFound "File not found in storage"
    | .ok data => .ok data

/-- A key resolves inside the shop's namespace when the resolved path opens
with `storageRoot/<sanitized shop>`. -/
def inShopNamespace (shop : String) (fileKey : List String) : Prop :=
  (normSegs (storageRoot ++ fileKey)).take (storageRoot.length + 1) =
    storageRoot ++ [sanitizeShopName shop]

/-- A well-formed invoice row: its key is a key `storeFile` can generate for
the row's own shop — the shop directory segment followed by one plain file
segment, with no empty, `.` or `..` segments. -/
def wfInvoiceRow (row : InvoiceRow) : Prop :=
  ∃ suffix, row.fileKey = [sanitizeShopName row.shop, suffix] ∧
    sanitizeShopName row.shop ≠ "" ∧ sanitizeShopName row.shop ≠ "." ∧
    sanitizeShopName row.shop ≠ ".." ∧
    suffix ≠ "" ∧ suffix ≠ "." ∧ suffix ≠ ".."

lemma normStep_plain (acc : List String) {s : String}
    (h : s ≠ "" ∧ s ≠ "." ∧ s ≠ "..") : normStep acc s = acc ++ [s] := by
  unfold normStep
  rw [if_neg (by tauto), if_neg h.2.2]

lemma normSegs_no_special :
    ∀ (segs : List String) (acc : List String),
      (∀ x ∈ segs, x ≠ "" ∧ x ≠ "." ∧ x ≠ "..") →
      segs.foldl normStep acc = acc ++ segs := by
  intro segs
  induction segs with
  | nil => intro acc _; simp
  | cons a t ih =>
    intro acc h
    rw [List.foldl_cons, normStep_plain acc (h a (List.mem_cons_self a t)),
      ih (acc ++ [a]) (fun x hx => h x (List.mem_cons_of_mem a hx))]
    simp

/-- Claim C5: under a database whose rows were produced by `storeFile` (each
key names the row's own shop directory), any request whose key does not
resolve to an existing file inside the calling shop's namespace — a
traversal key, another shop's key, or a missing file — gets 404 NotFound
and never file data. -/
theorem download_outside_namespace_not_found
    (db : List InvoiceRow) (fs : List String → Option String)
    (shop : String) (fileKey : List String)
    (hwf : ∀ row ∈ db, wfInvoiceRow row)
    (hout : ¬ (inShopNamespace shop fileKey ∧
      (fs (normSegs (storageRoot ++ fileKey))).isSome = true)) :
    (∃ msg, downloadLoader db fs shop fileKey = .notFound msg) ∧
    (∀ data, downloadLoader db fs shop fileKey ≠ .ok data) := by
  have hmain : ∃ msg, downloadLoader db fs shop fileKey = .notFound msg := by
    cases hfind : db.find? (fun inv => inv.fileKey == fileKey && inv.shop == shop) with
    | none =>
      exact ⟨"Invoice not found", by simp [downloadLoader, hfind]⟩
    | some row =>
      have hp := List.find?_some hfind
      have hmem := List.mem_of_find?_eq_some hfind
      rw [Bool.and_eq_true, beq_iff_eq, beq_iff_eq] at hp
      obtain ⟨hkey, hshop⟩ := hp
      obtain ⟨suffix, hks, hs1, hs2, hs3, hx1, hx2, hx3⟩ := hwf row hmem
      have hfk : fileKey = [sanitizeShopName shop, suffix] := by
        rw [← hkey, hks, hshop]
      have hroot : ∀ x ∈ storageRoot, x ≠ "" ∧ x ≠ "." ∧ x ≠ ".." := by decide
      have hnorm : normSegs (storageRoot ++ fileKey) = storageRoot ++ fileKey := by
        rw [normSegs, normSegs_no_special (storageRoot ++ fileKey) []]
        · simp
        · intro x hx
          rcases List.mem_append.mp hx with hx | hx
          · exact hroot x hx
          · rw [hfk] at hx
            rcases List.mem_cons.mp hx with hx | hx
            · subst hx
              rw [← hshop]
              exact ⟨hs1, hs2, hs3⟩
            · rw [List.mem_singleton] at hx
              subst hx
              exact ⟨hx1, hx2, hx3⟩
      have hns : inShopNamespace shop fileKey := by
        rw [inShopNamespace, hnorm, hfk]
        rfl
      have hnofile : fs (normSegs (storageRoot ++ fileKey)) = none := by
        cases hfs : fs (normSegs (storageRoot ++ fileKey)) with
        | none => rfl
        | some data => exact absurd ⟨hns, by rw [hfs]; rfl⟩ hout
      have hgf : ∃ e, getFile fs fileKey = .error e := by
        cases hchk : (pathStr (normSegs (storageRoot ++ fileKey))).startsWith
            (pathStr (normSegs storageRoot)) with
        | false => exact ⟨"Invalid file path", by simp [getFile, hchk]⟩
        | true => exact ⟨"File not found", by simp [getFile, hchk, hnofile]⟩
      obtain ⟨e, he⟩ := hgf
      exact ⟨"File not found in storage", by simp [downloadLoader, hfind, he]⟩
  obtain ⟨msg, hm⟩ := hmain
  refine ⟨⟨msg, hm⟩, ?_⟩
  intro data hdata
  rw [hm] at hdata
  exact DownloadResponse.noConfusion hdata

/-- Witness for C5: shop B requests shop A's stored artifact key; the file
exists on disk under shop A, yet the response is 404 and carries no data. -/
theorem download_outside_namespace_not_found_witness :
    (∃ msg, downloadLoader
        [⟨"shopA.myshopify.com", ["shopA.myshopify.com", "1-invoice.pdf"], "INV-1001"⟩]
        (fun p => if p = storageRoot ++ ["shopA.myshopify.com", "1-invoice.pdf"]
          then some "PDFDATA" else none)
        "shopB.myshopify.com" ["shopA.myshopify.com", "1-invoice.pdf"] =
      .notFound msg) ∧
    (∀ data, downloadLoader
        [⟨"shopA.myshopify.com", ["shopA.myshopify.com", "1-invoice.pdf"], "INV-1001"⟩]
        (fun p => if p = storageRoot ++ ["shopA.myshopify.com", "1-invoice.pdf"]
          then some "PDFDATA" else none)
        "shopB.myshopify.com" ["shopA.myshopify.com", "1-invoice.pdf"] ≠
      .ok data) := by
  refine download_outside_namespace_not_found _ _ _ _ ?_ ?_
  · intro row hrow
    rw [List.mem_singleton] at hrow
    subst hrow
    exact ⟨"1-invoice.pdf", by decide, by decide, by decide, by decide,
      by decide, by decide, by decide⟩
  · intro hcontra
    have h := hcontra.1
    rw [inShopNamespace] at h
    exact absurd h (by decide)

/-! ## Claim C10: `GSTService.addGSTToOrders` -/

/-- The fallback breakdown the catch block attaches when a per-order GST
calculation throws: IGST, zero rate, zero amounts, no HSN code. -/
def fallbackGSTBreakdown : GSTBreakdown :=
  { gstType := .IGST, gstRate := 0, totalGstAmount := 0, taxableAmount := 0,
    igstAmount := some 0 }

/-- An order with its attached breakdown (`{ ...order, gstBreakdown }`); the
order payload is opaque here. -/
structure OrderWithGST where
  order : String
  gstBreakdown : GSTBreakdown
deriving DecidableEq, Repr

/-- `addGSTToOrders`: one result pushed per order; a throwing
`addGSTToOrder` (the `calcOrder` parameter) is caught and replaced by the
fallback breakdown, never propagated. -/
def addGSTToOrders (calcOrder : String → Except String GSTBreakdown)
    (orders : List String) : List OrderWithGST :=
  orders.map (fun topOrder =>
    match calcOrder topOrder with
    | .ok b => ⟨topOrder, b⟩
    | .error _ => ⟨topOrder, fallbackGSTBreakdown⟩)

/-- Claim C10: `addGSTToOrders` returns exactly one result per input order,
in order; a successful per-order calculation is attached as-is, and a
throwing one is caught and replaced by the all-zero IGST fallback, so the
call never fails. -/
theorem addGSTToOrders_total_with_fallback
    (calcOrder : String → Except String GSTBreakdown) (orders : List String) :
    (addGSTToOrders calcOrder orders).length = orders.length ∧
    (∀ i o, orders.get? i = some o →
      (∀ b, calcOrder o = .ok b →
        (addGSTToOrders calcOrder orders).get? i = some ⟨o, b⟩) ∧
      (∀ e, calcOrder o = .error e →
        (addGSTToOrders calcOrder orders).get? i = some ⟨o, fallbackGSTBreakdown⟩)) ∧
    fallbackGSTBreakdown.gstType = .IGST ∧
    fallbackGSTBreakdown.gstRate = 0 ∧
    fallbackGSTBreakdown.taxableAmount = 0 ∧
    fallbackGSTBreakdown.totalGstAmount = 0 ∧
    fallbackGSTBreakdown.igstAmount = some 0 ∧
    fallbackGSTBreakdown.cgstAmount = none ∧
    fallbackGSTBreakdown.sgstAmount = none := by
  refine ⟨by simp [addGSTToOrders], ?_, rfl, rfl, rfl, rfl, rfl, rfl, rfl⟩
  intro i o ho
  constructor
  · intro b hb
    rw [addGSTToOrders, List.get?_map, ho, Option.map_some', hb]
  · intro e he
    rw [addGSTToOrders, List.get?_map, ho, Option.map_some', he]
